import Mathlib

/-!
Verification of the `run_swarm.py` pipeline (FredHutch/docker-swarm).

The script is embedded shallowly: external command executions are modelled by a
behaviour function `Nat → ExecResult` giving, for the n-th execution of a
command vector, its exit code and output streams; the filesystem effects that
the claims talk about (redirect-file writes, workspace teardown, directory
listings) are tracked explicitly as data.  Definitions follow the Python source
line by line; file/line references are given in the doc comments.
-/

/-- One execution of an external command: its exit code, the interleaved
stdout+stderr stream as captured when both are piped together
(`stdout=PIPE, stderr=STDOUT`, run_swarm.py lines 20-23), and the two separate
streams as seen when stdout is redirected to a file (lines 25-29). -/
structure ExecResult where
  exitcode : Int
  combined : String
  out : String
  err : String
deriving DecidableEq

/-- Value of the Python local variable `stdout` in `run_cmds` after the capture
phase: either the captured combined text (line 23) or the sentinel `False`
(line 30) used when the output was redirected to a file. -/
inductive PyCapture where
  | text (s : String)
  | sentinelFalse
deriving DecidableEq

/-- Python return value of `run_cmds`.  The source function has no `return`
statement, so it always returns `None`; the `pair` constructor exists so that
the spec's claimed contract `run(...) -> (exitCode, combinedOutputText|None)`
can be stated and compared against what the code actually returns. -/
inductive PyRet where
  | none
  | pair (exitCode : Int) (combinedOut : Option String)
deriving DecidableEq

/-- Python exceptions raised by the script: `AssertionError` (from `assert`
statements, carrying the message) and generic `Exception`s. -/
inductive PyErr where
  | assertionError (msg : String)
  | exception (msg : String)
deriving DecidableEq

/-- Observable effects of one `run_cmds` call: the log lines emitted, the
(path, content) writes performed through the stdout-redirect file, and the
per-attempt values of the internal `stdout` capture variable. -/
structure CmdTrace where
  log : List String
  written : List (String × String)
  captured : List PyCapture
deriving DecidableEq

/-- Python `' '.join(commands)` (run_swarm.py line 18). -/
def sjoin : List String → String
  | [] => ""
  | [s] => s
  | s :: rest => s ++ " " ++ sjoin rest

/-- The capture variable after one attempt (run_swarm.py lines 19-30):
combined text when no redirect path is given, the `False` sentinel otherwise. -/
def capturedOf (e : ExecResult) : Option String → PyCapture
  | Option.none => PyCapture.text e.combined
  | Option.some _ => PyCapture.sentinelFalse

/-- The redirect-file write of one attempt (run_swarm.py lines 25-29): the
child's stdout is written verbatim to the redirect path when one is given. -/
def writtenOf (e : ExecResult) : Option String → List (String × String)
  | Option.none => []
  | Option.some p => [(p, e.out)]

/-- Log lines of one attempt (run_swarm.py lines 17-39): the command line, then
the captured stdout split into lines (only when the capture variable is truthy,
i.e. non-empty text), then stderr lines (stderr is `None` when it was merged
into stdout, so only the redirect branch logs it). -/
def attemptLog (e : ExecResult) (commands : List String) (stdoutPath : Option String) :
    List String :=
  ["Commands:", sjoin commands]
  ++ (match stdoutPath with
      | Option.none =>
        if e.combined ≠ "" then "Standard output of subprocess:" :: e.combined.splitOn "\n"
        else []
      | Option.some _ => [])
  ++ (match stdoutPath with
      | Option.none => []
      | Option.some _ =>
        if e.err ≠ "" then "Standard error of subprocess:" :: e.err.splitOn "\n"
        else [])

/-- The full trace of one attempt. -/
def attemptTrace (e : ExecResult) (commands : List String) (stdoutPath : Option String) :
    CmdTrace :=
  { log := attemptLog e commands stdoutPath
    written := writtenOf e stdoutPath
    captured := [capturedOf e stdoutPath] }

/-- Sequential composition of traces. -/
def appendTrace (a b : CmdTrace) : CmdTrace :=
  { log := a.log ++ b.log, written := a.written ++ b.written, captured := a.captured ++ b.captured }

/-- `run_cmds(commands, retry=0, catchExcept=False, stdout=None)`
(run_swarm.py lines 15-50).  `beh n` is the outcome of the n-th execution of
the command vector and `k` counts executions already performed, so the first
attempt of this call is `beh k`.  The Python branch structure is kept:
`exitcode != 0 and retry > 0` re-invokes with `retry - 1` and the *default*
`catchExcept`/`stdout` arguments (line 45), and the recursive call's outcome is
the call's outcome; otherwise `exitcode != 0 and catchExcept` logs and returns
normally (lines 46-48); otherwise `assert exitcode == 0` (line 50) either
returns `None` or raises `AssertionError`.  The `retry + 1` pattern is exactly
the `retry > 0` condition. -/
def run_cmds (beh : Nat → ExecResult) (commands : List String) :
    Nat → Nat → Bool → Option String → CmdTrace × Except PyErr PyRet
  | k, retry + 1, _catchExcept, stdoutPath =>
    let e := beh k
    let tr := attemptTrace e commands stdoutPath
    if e.exitcode ≠ 0 then
      let msg := "Exit code " ++ toString e.exitcode ++ ", retrying "
        ++ toString (retry + 1) ++ " more times"
      let sub := run_cmds beh commands (k + 1) retry false Option.none
      (appendTrace { tr with log := tr.log ++ [msg] } sub.1, sub.2)
    else
      (tr, Except.ok PyRet.none)
  | k, 0, catchExcept, stdoutPath =>
    let e := beh k
    let tr := attemptTrace e commands stdoutPath
    if e.exitcode ≠ 0 ∧ catchExcept = true then
      ({ tr with log := tr.log ++
          ["Exit code was " ++ toString e.exitcode ++ ", but we will continue anyway"] },
        Except.ok PyRet.none)
    else if e.exitcode = 0 then
      (tr, Except.ok PyRet.none)
    else
      (tr, Except.error (PyErr.assertionError ("Exit code " ++ toString e.exitcode)))

/-- The fetch backends of `get_reads_from_url` (run_swarm.py lines 108-139).
`unrecognized` is the `raise Exception("Did not recognize prefix ...")` branch
at line 139. -/
inductive Backend where
  | localPath
  | s3
  | httpLike
  | sra
  | unrecognized
deriving DecidableEq

/-- `input_str.startswith(('s3://', 'sra://', 'ftp://', 'https://', 'http://'))`
(run_swarm.py lines 108-111). -/
def startsWith5 (s : List Char) : Bool :=
  ("s3://".data).isPrefixOf s || ("sra://".data).isPrefixOf s
    || ("ftp://".data).isPrefixOf s || ("https://".data).isPrefixOf s
    || ("http://".data).isPrefixOf s

/-- The separator `'://'`. -/
def sep3 : List Char := ":/".data ++ "/".data

/-- `s.split('://', 1)[0]`: the part of `s` before the first occurrence of
`'://'` (the whole string when the separator does not occur). -/
def splitHead (sep : List Char) : List Char → List Char
  | [] => []
  | c :: rest => if sep.isPrefixOf (c :: rest) then [] else c :: splitHead sep rest

/-- Backend selection of `get_reads_from_url` (run_swarm.py lines 108-139),
with the branches in source order: `not input_str.startswith((five prefixes))`
selects the bare-local-path branch, then `s3://`, then
`input_str.split('://', 1)[0] in ['ftp', 'https', 'http']`, then `sra://`,
and otherwise the `raise` at line 139. -/
def get_reads_dispatch (s : List Char) : Backend :=
  if startsWith5 s = false then Backend.localPath
  else if ("s3://".data).isPrefixOf s then Backend.s3
  else if [("ftp".data), ("https".data), ("http".data)].contains (splitHead sep3 s) then
    Backend.httpLike
  else if ("sra://".data).isPrefixOf s then Backend.sra
  else Backend.unrecognized

/-- External commands run by the normalization tail of `get_reads_from_url`
(run_swarm.py lines 141-153): `pigz -d <path>` and
`fastq_to_fasta -i <in> -o <out>`. -/
inductive NormCmd where
  | pigz (fp : List Char)
  | fastq_to_fasta (inp outp : List Char)
deriving DecidableEq

/-- The decompression / format-conversion tail of `get_reads_from_url`
(run_swarm.py lines 141-154): if `local_path` ends in `.gz`, run `pigz -d` and
drop the suffix (`local_path[:-3]`); then, if the last character is `q` or `Q`,
run `fastq_to_fasta` into `local_path[:-1] + "a"`.  In Python,
`local_path[-1]` on an empty string raises `IndexError`, modelled by the
error branch. -/
def normalize_reads (local_path : List Char) : Except PyErr (List NormCmd × List Char) :=
  let gz := (".gz".data).isSuffixOf local_path
  let cmds1 : List NormCmd := if gz then [NormCmd.pigz local_path] else []
  let p1 := if gz then local_path.take (local_path.length - 3) else local_path
  match p1.getLast? with
  | Option.none => Except.error (PyErr.exception "IndexError: string index out of range")
  | Option.some c =>
    if c = 'q' ∨ c = 'Q' then
      let fasta_fp := p1.take (p1.length - 1) ++ ['a']
      Except.ok (cmds1 ++ [NormCmd.fastq_to_fasta p1 fasta_fp], fasta_fp)
    else
      Except.ok (cmds1, p1)

/-- The suffix `"fastq"` used by the SRA download checks
(run_swarm.py lines 205-208 and 218-222). -/
def fastqSuf : List Char := "fastq".data

/-- `fp.startswith(accession) and fp.endswith("fastq")`: the condition of the
download assertion (run_swarm.py lines 205-208) and of the per-part unlink loop
(lines 218-222). -/
def sraMatch (accession fp : List Char) : Bool :=
  accession.isPrefixOf fp && fastqSuf.isSuffixOf fp

/-- Shell-glob match for `{accession}*fastq` (run_swarm.py line 213): the name
is the accession, then anything, then `fastq`. -/
def globMatch (accession fp : List Char) : Bool :=
  accession.isPrefixOf fp && fastqSuf.isSuffixOf (fp.drop accession.length)

/-- Lexicographic comparison of filenames, as used by shell glob expansion to
order the arguments of `cat {accession}*fastq` (run_swarm.py line 213). -/
def nameLe : List Char → List Char → Bool
  | [], _ => true
  | _ :: _, [] => false
  | a :: as, b :: bs => if a = b then nameLe as bs else decide (a < b)

/-- Insertion step of the glob-order sort. -/
def insertName (x : List Char) : List (List Char) → List (List Char)
  | [] => [x]
  | y :: ys => if nameLe x y then x :: y :: ys else y :: insertName x ys

/-- Filenames in shell-glob (lexicographic) order. -/
def sortNames (l : List (List Char)) : List (List Char) := l.foldr insertName []

/-- Content of the file named `n` in a directory listing (used to model what
`cat` reads from each glob-matched file). -/
def lookupContent (dir : List (List Char × List Char)) (n : List Char) : List Char :=
  (List.lookup n dir).getD []

/-- `get_sra(accession, temp_folder)` (run_swarm.py lines 181-235), as a
function of the directory listing `dirFiles` (filename, content) that
`prefetch` / `fastq-dump --split-files` left in the temp folder.  Steps, in
source order: assert that some file starts with the accession and ends with
`fastq` (lines 205-208); create `local_path + ".temp"` and `cat` every
glob-matched `{accession}*fastq` file into it in glob order (lines 212-215;
the fresh `.temp` file itself does not match the glob); unlink every file that
starts with the accession and ends with `fastq` (lines 218-222); `mv` the
`.temp` file onto `local_path = accession + ".fastq"` (line 231).  The
cache-file removal (lines 225-228) touches a path outside the temp folder and
is not part of the listing.  The model assumes no pre-existing file bears the
fresh `.temp` name (theorem hypotheses make this explicit). -/
def get_sra (accession : List Char) (dirFiles : List (List Char × List Char)) :
    Except PyErr (List Char × List (List Char × List Char)) :=
  if ((dirFiles.map Prod.fst).any (fun fp => sraMatch accession fp)) = false then
    Except.error (PyErr.assertionError
      ("File could not be downloaded from SRA: " ++ String.mk accession))
  else
    let local_path := accession ++ ".fastq".data
    let tempName := local_path ++ ".temp".data
    let catContent :=
      ((sortNames ((dirFiles.map Prod.fst).filter (globMatch accession))).map
        (lookupContent dirFiles)).flatten
    let dir1 := dirFiles ++ [(tempName, catContent)]
    let dir2 := dir1.filter (fun e => !(sraMatch accession e.1))
    let dir3 := (dir2.filter (fun e => !(e.1 == local_path))).map
      (fun e => if e.1 == tempName then (local_path, e.2) else e)
    Except.ok (local_path, dir3)

/-- Result of `os.path.exists(fp)` and `os.stat(fp).st_size` for one declared
output file (run_swarm.py lines 345-348). -/
structure FileStat where
  path_exists : Bool
  st_size : Nat
deriving DecidableEq

/-- The output-verification loop (run_swarm.py lines 345-348):
`for fp in [fasta_out, csv_out]: assert os.path.exists(fp);
assert os.stat(fp).st_size > 0`.  Both asserts are bare, so a failure raises
`AssertionError` with an empty message. -/
def verifyOutputs : List FileStat → Except PyErr Unit
  | [] => Except.ok ()
  | f :: rest =>
    if f.path_exists = false then Except.error (PyErr.assertionError "")
    else if f.st_size = 0 then Except.error (PyErr.assertionError "")
    else verifyOutputs rest

/-- Argument of Python's `sys.exit`: `None`, an `int`, or any other object
(such as an exception instance). -/
inductive ExitArg where
  | none
  | int (n : Int)
  | obj (e : PyErr)
deriving DecidableEq

/-- Modelled from CPython's documented `sys.exit` semantics: `None` exits with
status 0, an `int` exits with that status, and any other object is printed to
stderr and the process exits with status 1. -/
def sysExitStatus : ExitArg → Int
  | ExitArg.none => 0
  | ExitArg.int n => n
  | ExitArg.obj _ => 1

/-- How the interpreter process ends: a `sys.exit(arg)` call, an exception
escaping `__main__` (CPython then exits with status 1), or the script running
to completion (status 0). -/
inductive Termination where
  | sysExitCall (arg : ExitArg)
  | uncaught (e : PyErr)
  | normalEnd
deriving DecidableEq

/-- The process exit status produced by each way of terminating. -/
def terminationStatus : Termination → Int
  | Termination.sysExitCall a => sysExitStatus a
  | Termination.uncaught _ => 1
  | Termination.normalEnd => 0

/-- Outcome of one run of the script: how the process ended, and whether the
per-run temporary folder was removed (`shutil.rmtree`) before it ended. -/
structure MainResult where
  term : Termination
  tempRemoved : Bool
deriving DecidableEq

/-- `exit_and_clean_up(temp_folder)` (run_swarm.py lines 77-92): logs the
traceback, removes the temporary folder with `shutil.rmtree`, and calls
`sys.exit(exc_value)` where `exc_value` is the caught exception *instance*
(an object, not an int). -/
def exit_and_clean_up (e : PyErr) : MainResult :=
  { term := Termination.sysExitCall (ExitArg.obj e), tempRemoved := true }

/-- The state of the world that one run of `__main__` observes: the parsed
configuration, the outcome of `get_reads_from_url` (which internally performs
fetching *and* the decompression/format-conversion of lines 141-153, all inside
the `try` of lines 304-309), the behaviour of the `swarmwrapper` subprocess,
the stat results of the two declared outputs after clustering, and the outcome
of the publishing loop (lines 351-352). -/
structure MainWorld where
  sample_name : String
  temp_folder : String
  differences : Int
  min_mass : Int
  keep_abundance : Bool
  fetch : Except PyErr String
  swarmBeh : Nat → ExecResult
  fasta_stat : FileStat
  csv_stat : FileStat
  publish : Except PyErr Unit

/-- The Swarm command vector (run_swarm.py lines 324-335). -/
def swarm_command (w : MainWorld) (read_fps fasta_out csv_out : String) : List String :=
  ["swarmwrapper", "cluster", read_fps, "-D", "-w", fasta_out, "-a", csv_out,
    "-d", toString w.differences, "-M", toString w.min_mass]
  ++ (if w.keep_abundance then ["--keep-abundance"] else [])

/-- `__main__` from the fetch stage on (run_swarm.py lines 302-352).
Fetching (lines 304-309) and clustering (lines 338-341) are wrapped in
`try/except` blocks whose handlers call `exit_and_clean_up`; the
output-verification loop (lines 345-348) and the publishing loop (lines
350-352) are *not* wrapped, so an exception there escapes `__main__` and the
temporary folder is not removed.  The clustering stage invokes `run_cmds` with
its default arguments (`retry=0, catchExcept=False, stdout=None`). -/
def mainRun (w : MainWorld) : MainResult :=
  match w.fetch with
  | Except.error e => exit_and_clean_up e
  | Except.ok read_fps =>
    let fasta_out := w.temp_folder ++ "/" ++ w.sample_name ++ ".swarm.fasta"
    let csv_out := w.temp_folder ++ "/" ++ w.sample_name ++ ".swarm.csv"
    match (run_cmds w.swarmBeh (swarm_command w read_fps fasta_out csv_out)
        0 0 false Option.none).2 with
    | Except.error e => exit_and_clean_up e
    | Except.ok _ =>
      match verifyOutputs [w.fasta_stat, w.csv_stat] with
      | Except.error e => { term := Termination.uncaught e, tempRemoved := false }
      | Except.ok _ =>
        match w.publish with
        | Except.error e => { term := Termination.uncaught e, tempRemoved := false }
        | Except.ok _ => { term := Termination.normalEnd, tempRemoved := false }

/-- A command behaviour with a fixed exit code on every execution. -/
def behConst (c : Int) : Nat → ExecResult :=
  fun _ => { exitcode := c, combined := "hello", out := "partial", err := "warn" }

/-- A command behaviour that exits 1 on its first `n` executions and 0 from
execution `n` on. -/
def behFailTimes (n : Nat) : Nat → ExecResult :=
  fun i => if i < n then { exitcode := 1, combined := "boom", out := "bad", err := "e" }
           else { exitcode := 0, combined := "retried-output", out := "good", err := "" }

/-- A concrete world in which every stage succeeds. -/
def wAllOk : MainWorld :=
  { sample_name := "S1", temp_folder := "/share/abcd1234", differences := 1, min_mass := 1,
    keep_abundance := false, fetch := Except.ok "/share/abcd1234/reads.fasta",
    swarmBeh := behConst 0,
    fasta_stat := { path_exists := true, st_size := 10 },
    csv_stat := { path_exists := true, st_size := 7 },
    publish := Except.ok () }

/-- A concrete world in which the clustering tool exits 0 but writes a
zero-byte CSV output (end-to-end scenario C of the spec). -/
def wEmptyCsv : MainWorld :=
  { wAllOk with csv_stat := { path_exists := true, st_size := 0 } }

/-- A concrete world in which the clustering tool fails with exit code 2. -/
def wSwarmExit2 : MainWorld :=
  { wAllOk with swarmBeh := behConst 2 }

/-- A concrete world in which fetching raises. -/
def wFetchErr : MainWorld :=
  { wAllOk with fetch := Except.error (PyErr.exception "connection refused") }

/-- A concrete world in which the clustering tool fails with exit code 1. -/
def wSwarmExit1 : MainWorld :=
  { wAllOk with swarmBeh := behConst 1 }

theorem run_cmds_zero_ok (beh : Nat → ExecResult) (commands : List String) (k retry : Nat)
    (ce : Bool) (sp : Option String) (h : (beh k).exitcode = 0) :
    (run_cmds beh commands k retry ce sp).2 = Except.ok PyRet.none := by
  cases retry with
  | zero => simp [run_cmds, h]
  | succ r => simp [run_cmds, h]

theorem run_cmds_zero_budget_fail (beh : Nat → ExecResult) (commands : List String) (k : Nat)
    (sp : Option String) (h : (beh k).exitcode ≠ 0) :
    (run_cmds beh commands k 0 false sp).2 =
      Except.error (PyErr.assertionError ("Exit code " ++ toString (beh k).exitcode)) := by
  simp [run_cmds, h]

theorem run_cmds_all_fail (beh : Nat → ExecResult) (commands : List String) :
    ∀ (retry k : Nat), (∀ i, i ≤ retry → (beh (k + i)).exitcode ≠ 0) →
    (run_cmds beh commands k retry false Option.none).2 =
      Except.error (PyErr.assertionError
        ("Exit code " ++ toString (beh (k + retry)).exitcode)) := by
  intro retry
  induction retry with
  | zero =>
    intro k h
    simpa using run_cmds_zero_budget_fail beh commands k Option.none (by simpa using h 0 (by omega))
  | succ r ih =>
    intro k h
    have h0 : (beh k).exitcode ≠ 0 := by simpa using h 0 (by omega)
    have hrec := ih (k + 1) (fun i hi => by
      have := h (i + 1) (by omega)
      simpa [Nat.add_assoc, Nat.add_comm 1 i] using this)
    simp only [run_cmds, if_pos h0]
    rw [hrec]
    have : k + 1 + r = k + (r + 1) := by omega
    rw [this]

theorem run_cmds_succeeds (beh : Nat → ExecResult) (commands : List String) :
    ∀ (n k retry : Nat), (∀ i, i < n → (beh (k + i)).exitcode ≠ 0) →
    (beh (k + n)).exitcode = 0 → n ≤ retry →
    (run_cmds beh commands k retry false Option.none).2 = Except.ok PyRet.none := by
  intro n
  induction n with
  | zero =>
    intro k retry _ h0 _
    exact run_cmds_zero_ok beh commands k retry false Option.none (by simpa using h0)
  | succ m ih =>
    intro k retry hfail h0 hle
    have hk : (beh k).exitcode ≠ 0 := by simpa using hfail 0 (by omega)
    cases retry with
    | zero => omega
    | succ r =>
      simp only [run_cmds, if_pos hk]
      exact ih (k + 1) r
        (fun i hi => by
          have := hfail (i + 1) (by omega)
          simpa [Nat.add_assoc, Nat.add_comm 1 i] using this)
        (by
          have : k + 1 + m = k + (m + 1) := by omega
          rw [this]; exact h0)
        (by omega)

theorem isPrefixOf_ex : ∀ (p s : List Char), p.isPrefixOf s = true ↔ ∃ t, p ++ t = s
  | [], s => by simp [List.isPrefixOf]
  | a :: as, [] => by simp [List.isPrefixOf]
  | a :: as, b :: bs => by
    simp only [List.isPrefixOf, Bool.and_eq_true, beq_iff_eq, isPrefixOf_ex as bs,
      List.cons_append, List.cons.injEq]
    constructor
    · rintro ⟨rfl, t, rfl⟩; exact ⟨t, rfl, rfl⟩
    · rintro ⟨t, rfl, rfl⟩; exact ⟨rfl, t, rfl⟩

theorem isSuffixOf_ex (p s : List Char) : p.isSuffixOf s = true ↔ ∃ t, t ++ p = s := by
  rw [List.isSuffixOf, isPrefixOf_ex]
  constructor
  · rintro ⟨t, ht⟩
    refine ⟨t.reverse, ?_⟩
    have := congrArg List.reverse ht
    simpa using this
  · rintro ⟨t, rfl⟩
    exact ⟨t.reverse, by simp⟩

theorem isPrefixOf_append_self (p t : List Char) : p.isPrefixOf (p ++ t) = true :=
  (isPrefixOf_ex p (p ++ t)).mpr ⟨t, rfl⟩

theorem isSuffixOf_append_self (p t : List Char) : p.isSuffixOf (t ++ p) = true :=
  (isSuffixOf_ex p (t ++ p)).mpr ⟨t, rfl⟩

theorem splitHead_ftp (t : List Char) : splitHead sep3 ("ftp://".data ++ t) = "ftp".data := by
  simp [splitHead, sep3, List.isPrefixOf]

theorem splitHead_https (t : List Char) :
    splitHead sep3 ("https://".data ++ t) = "https".data := by
  simp [splitHead, sep3, List.isPrefixOf]

theorem splitHead_http (t : List Char) :
    splitHead sep3 ("http://".data ++ t) = "http".data := by
  simp [splitHead, sep3, List.isPrefixOf]

theorem dispatch_never_unrecognized (s : List Char) :
    get_reads_dispatch s ≠ Backend.unrecognized := by
  intro h
  unfold get_reads_dispatch at h
  split_ifs at h with h1 h2 h3 h4
  have h5 : startsWith5 s = true := by
    revert h1; cases startsWith5 s <;> simp
  rw [startsWith5] at h5
  simp only [Bool.or_eq_true] at h5
  rcases h5 with ((((hp | hp) | hp) | hp) | hp)
  · exact h2 hp
  · exact h4 hp
  · obtain ⟨t, rfl⟩ := (isPrefixOf_ex _ s).mp hp
    rw [splitHead_ftp] at h3
    simp at h3
  · obtain ⟨t, rfl⟩ := (isPrefixOf_ex _ s).mp hp
    rw [splitHead_https] at h3
    simp at h3
  · obtain ⟨t, rfl⟩ := (isPrefixOf_ex _ s).mp hp
    rw [splitHead_http] at h3
    simp at h3

theorem run_cmds_none_no_writes (beh : Nat → ExecResult) (commands : List String) :
    ∀ (retry k : Nat) (ce : Bool),
    (run_cmds beh commands k retry ce Option.none).1.written = [] ∧
    (∀ c ∈ (run_cmds beh commands k retry ce Option.none).1.captured,
      ∃ s, c = PyCapture.text s) := by
  intro retry
  induction retry with
  | zero =>
    intro k ce
    constructor
    · simp [run_cmds, attemptTrace, writtenOf]
      split_ifs <;> rfl
    · intro c hc
      refine ⟨(beh k).combined, ?_⟩
      simp [run_cmds, attemptTrace, capturedOf] at hc
      split_ifs at hc <;> simp_all
  | succ r ih =>
    intro k ce
    by_cases h : (beh k).exitcode ≠ 0
    · constructor
      · simp [run_cmds, if_pos h, appendTrace, attemptTrace, writtenOf, (ih (k + 1) false).1]
      · intro c hc
        simp [run_cmds, if_pos h, appendTrace, attemptTrace, capturedOf] at hc
        rcases hc with hc | hc
        · exact ⟨(beh k).combined, hc⟩
        · exact (ih (k + 1) false).2 c hc
    · constructor
      · simp [run_cmds, if_neg h, attemptTrace, writtenOf]
      · intro c hc
        simp [run_cmds, if_neg h, attemptTrace, capturedOf] at hc
        exact ⟨(beh k).combined, hc⟩

theorem run_cmds_stdout_logged (beh : Nat → ExecResult) (commands : List String)
    (retry k : Nat) (ce : Bool) (h : (beh k).combined ≠ "") :
    "Standard output of subprocess:" ∈ (run_cmds beh commands k retry ce Option.none).1.log := by
  have hmem : "Standard output of subprocess:" ∈ attemptLog (beh k) commands Option.none := by
    simp [attemptLog, h]
  cases retry with
  | zero =>
    simp only [run_cmds]
    split_ifs <;> simp [attemptTrace, List.mem_append] <;> tauto
  | succ r =>
    by_cases hx : (beh k).exitcode ≠ 0
    · simp [run_cmds, if_pos hx, appendTrace, attemptTrace, List.mem_append]
      tauto
    · simp [run_cmds, if_neg hx, attemptTrace, List.mem_append]
      tauto

theorem insertName_perm (x : List Char) :
    ∀ l : List (List Char), List.Perm (insertName x l) (x :: l) := by
  intro l
  induction l with
  | nil => simp [insertName]
  | cons y ys ih =>
    rw [insertName]
    split_ifs
    · exact List.Perm.refl _
    · exact List.Perm.trans (List.Perm.cons y ih) (List.Perm.swap x y ys)

theorem sortNames_perm (l : List (List Char)) : List.Perm (sortNames l) l := by
  induction l with
  | nil => simp [sortNames]
  | cons a as ih =>
    have : sortNames (a :: as) = insertName a (sortNames as) := rfl
    rw [this]
    exact List.Perm.trans (insertName_perm a (sortNames as)) (List.Perm.cons a ih)

theorem lookup_of_mem :
    ∀ (dir : List (List Char × List Char)) (n c : List Char),
    (dir.map Prod.fst).Nodup → (n, c) ∈ dir → List.lookup n dir = Option.some c := by
  intro dir
  induction dir with
  | nil => intro n c _ h; simp at h
  | cons e rest ih =>
    intro n c hnd hmem
    obtain ⟨e1, e2⟩ := e
    simp only [List.map_cons, List.nodup_cons] at hnd
    rcases List.mem_cons.mp hmem with heq | hrest
    · obtain ⟨rfl, rfl⟩ := Prod.mk.injEq .. ▸ heq
      injection heq with h1 h2
      simp [List.lookup]
    · have hne : n ≠ e1 := by
        intro hcon
        subst hcon
        exact hnd.1 (List.mem_map.mpr ⟨(n, c), hrest, rfl⟩)
      simp only [List.lookup, beq_eq_false_iff_ne.mpr hne]
      exact ih n c hnd.2 hrest

theorem lookupContent_of_mem (dir : List (List Char × List Char)) (n c : List Char)
    (hnd : (dir.map Prod.fst).Nodup) (hmem : (n, c) ∈ dir) : lookupContent dir n = c := by
  rw [lookupContent, lookup_of_mem dir n c hnd hmem]
  rfl

theorem globMatch_sraMatch (accession n : List Char) (h : globMatch accession n = true) :
    sraMatch accession n = true := by
  rw [globMatch, Bool.and_eq_true] at h
  obtain ⟨h1, h2⟩ := h
  rw [sraMatch, Bool.and_eq_true]
  refine ⟨h1, ?_⟩
  obtain ⟨t, ht⟩ := (isSuffixOf_ex _ _).mp h2
  refine (isSuffixOf_ex _ _).mpr ⟨n.take accession.length ++ t, ?_⟩
  rw [List.append_assoc, ht, List.take_append_drop]

theorem sraMatch_shape (accession m : List Char) :
    sraMatch accession (accession ++ m ++ fastqSuf) = true := by
  rw [sraMatch, Bool.and_eq_true]
  constructor
  · rw [List.append_assoc]
    exact isPrefixOf_append_self accession (m ++ fastqSuf)
  · exact isSuffixOf_append_self fastqSuf (accession ++ m)

theorem globMatch_shape (accession m : List Char) :
    globMatch accession (accession ++ m ++ fastqSuf) = true := by
  rw [globMatch, Bool.and_eq_true]
  constructor
  · rw [List.append_assoc]
    exact isPrefixOf_append_self accession (m ++ fastqSuf)
  · rw [List.append_assoc, List.drop_left]
    exact isSuffixOf_append_self fastqSuf m

theorem sraMatch_local (accession : List Char) :
    sraMatch accession (accession ++ ".fastq".data) = true := by
  have h : ".fastq".data = ['.'] ++ fastqSuf := rfl
  rw [sraMatch, Bool.and_eq_true]
  constructor
  · exact isPrefixOf_append_self accession (".fastq".data)
  · rw [h, ← List.append_assoc]
    exact isSuffixOf_append_self fastqSuf (accession ++ ['.'])

theorem fastq_not_suffix_of_temp (x : List Char) :
    fastqSuf.isSuffixOf (x ++ ".temp".data) = false := by
  cases hb : fastqSuf.isSuffixOf (x ++ ".temp".data) with
  | false => rfl
  | true =>
    exfalso
    obtain ⟨t, ht⟩ := (isSuffixOf_ex _ _).mp hb
    have h1 : (t ++ fastqSuf).getLast? = Option.some 'q' :=
      List.getLast?_append_of_ne_nil t (by simp [fastqSuf])
    have h2 : (x ++ ".temp".data).getLast? = Option.some 'p' :=
      List.getLast?_append_of_ne_nil x (by simp)
    rw [ht, h2] at h1
    simp at h1

theorem sraMatch_temp_false (accession x : List Char) :
    sraMatch accession (x ++ ".temp".data) = false := by
  rw [sraMatch, fastq_not_suffix_of_temp, Bool.and_false]

theorem temp_ne_local (accession : List Char) :
    ((accession ++ ".fastq".data) ++ ".temp".data) ≠ accession ++ ".fastq".data := by
  intro h
  have := congrArg List.length h
  simp at this

theorem map_entries_filter (dir : List (List Char × List Char))
    (hnd : (dir.map Prod.fst).Nodup) (q : (List Char × List Char) → Bool) :
    ((dir.filter q).map Prod.fst).map (fun n => (n, lookupContent dir n)) = dir.filter q := by
  rw [List.map_map]
  have h1 : ∀ e ∈ dir.filter q, ((fun n => (n, lookupContent dir n)) ∘ Prod.fst) e = id e := by
    intro e he
    have hd : e ∈ dir := List.mem_of_mem_filter he
    have : lookupContent dir e.1 = e.2 :=
      lookupContent_of_mem dir e.1 e.2 hnd (by simpa using hd)
    simp [Function.comp, this]
  rw [List.map_congr_left h1, List.map_id]

/-- C9: for an `sra://` input whose archive backend wrote split per-read files
(each named accession-prefix + `fastq`-suffix) into the workspace, `get_sra`
returns the single combined file `<accession>.fastq` whose content is the
concatenation of the split files' contents (in glob order, i.e. some
permutation of the matched entries), every original split file is gone from
the final listing, and unrelated files are untouched.  Deletion of the
originals is expressed by the final listing equalling the non-matching files
plus only the combined file. -/
theorem claim_C9 (accession : List Char) (dirFiles : List (List Char × List Char))
    (hsome : ∃ e ∈ dirFiles, sraMatch accession e.1 = true)
    (hshape : ∀ e ∈ dirFiles, sraMatch accession e.1 = true →
      ∃ m, e.1 = accession ++ m ++ fastqSuf)
    (hnd : (dirFiles.map Prod.fst).Nodup)
    (htempfree : ∀ e ∈ dirFiles, e.1 ≠ (accession ++ ".fastq".data) ++ ".temp".data) :
    ∃ l, List.Perm l (dirFiles.filter (fun e => sraMatch accession e.1)) ∧
      get_sra accession dirFiles = Except.ok (accession ++ ".fastq".data,
        dirFiles.filter (fun e => !(sraMatch accession e.1)) ++
          [(accession ++ ".fastq".data, (l.map Prod.snd).flatten)]) := by
  obtain ⟨e0, he0, hm0⟩ := hsome
  have hAny : ((dirFiles.map Prod.fst).any (fun fp => sraMatch accession fp)) = true :=
    List.any_eq_true.mpr ⟨e0.1, List.mem_map.mpr ⟨e0, he0, rfl⟩, hm0⟩
  have hfg : (dirFiles.map Prod.fst).filter (globMatch accession) =
      (dirFiles.filter (fun e => sraMatch accession e.1)).map Prod.fst := by
    rw [List.filter_map]
    congr 1
    apply List.filter_congr
    intro e he
    simp only [Function.comp]
    by_cases hs : sraMatch accession e.1 = true
    · obtain ⟨m, hm⟩ := hshape e he hs
      rw [hs, hm, globMatch_shape]
    · have hs' : sraMatch accession e.1 = false := by
        revert hs; cases sraMatch accession e.1 <;> simp
      have hg : globMatch accession e.1 = false := by
        cases hb : globMatch accession e.1 with
        | false => rfl
        | true => exact absurd (globMatch_sraMatch _ _ hb) (by simp [hs'])
      rw [hs', hg]
  set matched := dirFiles.filter (fun e => sraMatch accession e.1) with hmatched
  refine ⟨(sortNames (matched.map Prod.fst)).map (fun n => (n, lookupContent dirFiles n)),
    ?_, ?_⟩
  · have hperm := (sortNames_perm (matched.map Prod.fst)).map
      (fun n => (n, lookupContent dirFiles n))
    rwa [hmatched, map_entries_filter dirFiles hnd] at hperm
  · simp only [get_sra]
    rw [if_neg (by rw [hAny]; simp)]
    rw [hfg]
    set loc := accession ++ ".fastq".data with hloc
    set tmp := loc ++ ".temp".data with htmp
    set CT := ((sortNames (matched.map Prod.fst)).map (lookupContent dirFiles)).flatten with hCT
    have hsndl : ((((sortNames (matched.map Prod.fst)).map
        (fun n => (n, lookupContent dirFiles n)))).map Prod.snd).flatten = CT := by
      rw [hCT, List.map_map]
      rfl
    rw [hsndl]
    congr 2
    -- Bool facts about the temp and final names
    have hTmpNoMatch : sraMatch accession tmp = false := by
      rw [htmp]; exact sraMatch_temp_false accession loc
    have hlocMatch : sraMatch accession loc = true := by
      rw [hloc]; exact sraMatch_local accession
    have hTmpNeLoc : (tmp == loc) = false := by
      apply beq_eq_false_iff_ne.mpr
      rw [htmp, hloc]
      exact temp_ne_local accession
    -- step 1: the unlink loop keeps the temp file ...
    have hfiltTmp : List.filter (fun e => !(sraMatch accession e.1)) [(tmp, CT)] = [(tmp, CT)] := by
      simp [List.filter, hTmpNoMatch]
    -- ... and the `mv` filter does not remove it either
    have hfiltTmpLoc : List.filter (fun e => !(e.1 == loc)) [(tmp, CT)] = [(tmp, CT)] := by
      simp [List.filter, hTmpNeLoc]
    -- step 2: no kept file is named like the final output
    have hkeep2 : (dirFiles.filter (fun e => !(sraMatch accession e.1))).filter
        (fun e => !(e.1 == loc)) = dirFiles.filter (fun e => !(sraMatch accession e.1)) := by
      apply List.filter_eq_self.mpr
      intro e he
      have hns : sraMatch accession e.1 = false := by
        have := (List.mem_filter.mp he).2
        simpa using this
      have hne : e.1 ≠ loc := by
        intro hcon
        rw [hcon, hlocMatch] at hns
        cases hns
      simp [hne]
    -- step 3: the `mv` renaming leaves every kept file unchanged
    have hmapid : (dirFiles.filter (fun e => !(sraMatch accession e.1))).map
        (fun e => if e.1 == tmp then (loc, e.2) else e) =
        dirFiles.filter (fun e => !(sraMatch accession e.1)) := by
      have h1 : ∀ e ∈ dirFiles.filter (fun e => !(sraMatch accession e.1)),
          (fun e : List Char × List Char => if e.1 == tmp then (loc, e.2) else e) e = id e := by
        intro e he
        have hd : e ∈ dirFiles := List.mem_of_mem_filter he
        have hne : e.1 ≠ tmp := by
          rw [htmp, hloc]
          exact htempfree e hd
        simp [beq_eq_false_iff_ne.mpr hne]
      rw [List.map_congr_left h1, List.map_id]
    rw [List.filter_append, hfiltTmp, List.filter_append, hkeep2, hfiltTmpLoc,
      List.map_append, hmapid]
    simp

theorem claim_C9_witness :
    ∃ l, List.Perm l (([("SRR1_1.fastq".data, "AAA".data), ("SRR1_2.fastq".data, "CCC".data)]).filter
        (fun e => sraMatch ("SRR1".data) e.1)) ∧
      get_sra ("SRR1".data) [("SRR1_1.fastq".data, "AAA".data), ("SRR1_2.fastq".data, "CCC".data)] =
        Except.ok ("SRR1".data ++ ".fastq".data,
          ([("SRR1_1.fastq".data, "AAA".data), ("SRR1_2.fastq".data, "CCC".data)]).filter
              (fun e => !(sraMatch ("SRR1".data) e.1)) ++
            [("SRR1".data ++ ".fastq".data, (l.map Prod.snd).flatten)]) := by
  apply claim_C9
  · exact ⟨("SRR1_1.fastq".data, "AAA".data), by decide, by decide⟩
  · intro e he _
    simp only [List.mem_cons, List.mem_singleton, List.not_mem_nil, or_false] at he
    rcases he with rfl | rfl
    · exact ⟨"_1.".data, by decide⟩
    · exact ⟨"_2.".data, by decide⟩
  · decide
  · intro e he
    simp only [List.mem_cons, List.mem_singleton, List.not_mem_nil, or_false] at he
    rcases he with rfl | rfl <;> decide


/-- C8: a local path whose final character (after the `.gz`-decompression step,
if it applied) is `q` or `Q` is converted by `fastq_to_fasta` and the result
ends in `a`; a path that neither ends in the compressed suffix nor in `q`/`Q`
is returned unchanged, with no conversion command run. -/
theorem claim_C8 :
    (∀ (p : List Char) (c : Char),
      ((if (".gz".data).isSuffixOf p then p.take (p.length - 3) else p).getLast? =
        Option.some c) →
      (c = 'q' ∨ c = 'Q') →
      ∃ cmds r, normalize_reads p = Except.ok (cmds, r) ∧
        r.getLast? = Option.some 'a' ∧
        (∃ i, NormCmd.fastq_to_fasta i r ∈ cmds)) ∧
    (∀ (p : List Char) (c : Char),
      p.getLast? = Option.some c →
      ¬(c = 'q' ∨ c = 'Q') →
      (".gz".data).isSuffixOf p = false →
      normalize_reads p = Except.ok ([], p)) := by
  constructor
  · intro p c hlast hc
    by_cases hgz : (".gz".data).isSuffixOf p
    · rw [if_pos hgz] at hlast
      rcases hc with rfl | rfl <;>
        simp [normalize_reads, hgz, hlast] <;>
        exact ⟨_, _, ⟨rfl, rfl⟩, List.getLast?_concat _, ⟨p.take (p.length - 3), by simp⟩⟩
    · rw [if_neg hgz] at hlast
      rcases hc with rfl | rfl <;>
        simp [normalize_reads, hgz, hlast] <;>
        exact ⟨_, _, ⟨rfl, rfl⟩, List.getLast?_concat _, ⟨p, by simp⟩⟩
  · intro p c hlast hc hgz
    simp [normalize_reads, hgz, hlast, hc]

theorem claim_C8_witness :
    (∃ cmds r, normalize_reads ("reads.fastq".data) = Except.ok (cmds, r) ∧
      r.getLast? = Option.some 'a' ∧ (∃ i, NormCmd.fastq_to_fasta i r ∈ cmds)) ∧
    normalize_reads ("reads.txt".data) = Except.ok ([], "reads.txt".data) :=
  ⟨claim_C8.1 ("reads.fastq".data) 'q' (by decide) (Or.inl rfl),
   claim_C8.2 ("reads.txt".data) 't' (by decide) (by decide) (by decide)⟩


/-- C2 counterexample: the claim says an input URI with an unrecognized scheme
always yields `UnrecognizedSourceScheme`, but `gopher://host/file` does not
start with any of the five checked prefixes, so the very first branch of
`get_reads_from_url` treats it as a bare local path; the `raise` branch is not
taken. -/
theorem claim_C2_counterexample :
    get_reads_dispatch ("gopher://host/file".data) = Backend.localPath ∧
    Backend.localPath ≠ Backend.unrecognized := by
  constructor
  · simp [get_reads_dispatch, startsWith5, List.isPrefixOf]
  · decide

/-- C2 (amended): each recognized remote prefix routes to exactly the backend
in the spec's table (`s3://` to the object store, `http://`/`https://`/`ftp://`
to the URL fetcher, `sra://` to the archive backend); every input that starts
with none of the five prefixes — including URIs with unrecognized schemes —
is treated as a bare local path, and the `UnrecognizedSourceScheme` branch is
unreachable. -/
theorem claim_C2 :
    (∀ t : List Char, get_reads_dispatch ("s3://".data ++ t) = Backend.s3) ∧
    (∀ t : List Char, get_reads_dispatch ("http://".data ++ t) = Backend.httpLike) ∧
    (∀ t : List Char, get_reads_dispatch ("https://".data ++ t) = Backend.httpLike) ∧
    (∀ t : List Char, get_reads_dispatch ("ftp://".data ++ t) = Backend.httpLike) ∧
    (∀ t : List Char, get_reads_dispatch ("sra://".data ++ t) = Backend.sra) ∧
    (∀ s : List Char, startsWith5 s = false → get_reads_dispatch s = Backend.localPath) ∧
    (∀ s : List Char, get_reads_dispatch s ≠ Backend.unrecognized) := by
  refine ⟨?_, ?_, ?_, ?_, ?_, ?_, dispatch_never_unrecognized⟩
  · intro t; simp [get_reads_dispatch, startsWith5, List.isPrefixOf]
  · intro t; simp [get_reads_dispatch, startsWith5, List.isPrefixOf, splitHead, sep3]
  · intro t; simp [get_reads_dispatch, startsWith5, List.isPrefixOf, splitHead, sep3]
  · intro t; simp [get_reads_dispatch, startsWith5, List.isPrefixOf, splitHead, sep3]
  · intro t; simp [get_reads_dispatch, startsWith5, List.isPrefixOf, splitHead, sep3]
  · intro s h; simp [get_reads_dispatch, h]

theorem claim_C2_witness :
    get_reads_dispatch ("reads.fq".data) = Backend.localPath ∧
    get_reads_dispatch ("s3://bucket/reads.fq".data) = Backend.s3 := by
  constructor
  · exact claim_C2.2.2.2.2.2.1 ("reads.fq".data) (by decide)
  · have h := claim_C2.1 ("bucket/reads.fq".data)
    simpa using h

/-- C4: for a command that exits non-zero on its first `n` executions and zero
on execution `n + 1`, a `run_cmds` call with `retry ≥ n` (and
`catchExcept=False`) returns normally, while a call with `retry < n` raises
the `AssertionError` carrying the exit code of its final attempt
(`CommandFailed`). -/
theorem claim_C4 (beh : Nat → ExecResult) (commands : List String) (n retry : Nat)
    (hfail : ∀ i, i < n → (beh i).exitcode ≠ 0) (hok : (beh n).exitcode = 0) :
    (n ≤ retry → (run_cmds beh commands 0 retry false Option.none).2 = Except.ok PyRet.none) ∧
    (retry < n → (run_cmds beh commands 0 retry false Option.none).2 =
      Except.error (PyErr.assertionError ("Exit code " ++ toString (beh retry).exitcode))) := by
  constructor
  · intro hle
    exact run_cmds_succeeds beh commands n 0 retry
      (fun i hi => by simpa using hfail i hi) (by simpa using hok) hle
  · intro hlt
    have := run_cmds_all_fail beh commands retry 0
      (fun i hi => by simpa using hfail i (by omega))
    simpa using this

theorem claim_C4_witness :
    (run_cmds (behFailTimes 2) ["swarmwrapper"] 0 2 false Option.none).2 =
      Except.ok PyRet.none ∧
    (run_cmds (behFailTimes 2) ["swarmwrapper"] 0 1 false Option.none).2 =
      Except.error (PyErr.assertionError "Exit code 1") := by
  have h := claim_C4 (behFailTimes 2) ["swarmwrapper"] 2
  constructor
  · exact (h 2 (fun i hi => by simp [behFailTimes, hi]) (by decide)).1 (by omega)
  · have h2 := (h 1 (fun i hi => by simp [behFailTimes, hi]) (by decide)).2 (by omega)
    simpa [behFailTimes] using h2

/-- C3 counterexample: a call with `catchExcept=True` (tolerateFailure) and
`retry=1` on a command that always exits 1 raises `AssertionError "Exit code
1"` instead of returning normally — the retry at line 45 does not forward
`catchExcept`, so after the budget is exhausted the flag is never consulted. -/
theorem claim_C3_counterexample :
    (run_cmds (behConst 1) ["swarmwrapper"] 0 1 true Option.none).2 =
      Except.error (PyErr.assertionError "Exit code 1") ∧
    (run_cmds (behConst 1) ["swarmwrapper"] 0 1 true Option.none).2 ≠
      Except.ok PyRet.none := by
  refine ⟨rfl, ?_⟩
  intro h
  rw [show (run_cmds (behConst 1) ["swarmwrapper"] 0 1 true Option.none).2 =
    Except.error (PyErr.assertionError "Exit code 1") from rfl] at h
  exact Except.noConfusion h

/-- C3 (amended): with `tolerateFailure=true` and `retryBudget=k>0`, if the
command exits non-zero on the initial attempt and on all `k` retries, the call
raises `CommandFailed` (the `AssertionError` carrying the final exit code):
the tolerate flag is not forwarded to the retries, so it is only honoured when
the invocation itself has `retryBudget=0`. -/
theorem claim_C3 :
    (∀ (beh : Nat → ExecResult) (commands : List String) (k r : Nat), 0 < r →
      (∀ i, i ≤ r → (beh (k + i)).exitcode ≠ 0) →
      (run_cmds beh commands k r true Option.none).2 =
        Except.error (PyErr.assertionError
          ("Exit code " ++ toString (beh (k + r)).exitcode))) ∧
    (∀ (beh : Nat → ExecResult) (commands : List String) (k : Nat),
      (beh k).exitcode ≠ 0 →
      (run_cmds beh commands k 0 true Option.none).2 = Except.ok PyRet.none) := by
  constructor
  · intro beh commands k r hr hfail
    cases r with
    | zero => omega
    | succ m =>
      have h0 : (beh k).exitcode ≠ 0 := by simpa using hfail 0 (by omega)
      simp only [run_cmds, if_pos h0]
      have hrec := run_cmds_all_fail beh commands m (k + 1) (fun i hi => by
        have := hfail (i + 1) (by omega)
        simpa [Nat.add_assoc, Nat.add_comm 1 i] using this)
      rw [hrec, show k + 1 + m = k + (m + 1) from by omega]
  · intro beh commands k h
    simp [run_cmds, h]

theorem claim_C3_witness :
    (run_cmds (behConst 1) ["prefetch"] 0 1 true Option.none).2 =
      Except.error (PyErr.assertionError "Exit code 1") ∧
    (run_cmds (behConst 1) ["prefetch"] 0 0 true Option.none).2 = Except.ok PyRet.none := by
  constructor
  · have h := claim_C3.1 (behConst 1) ["prefetch"] 0 1 (by omega)
      (fun i _ => by simp [behConst])
    simpa [behConst] using h
  · exact claim_C3.2 (behConst 1) ["prefetch"] 0 (by simp [behConst])

/-- C7 counterexample: the claim says the run operation *returns* the pair
`(exitCode, combinedOutputText)`; the Python function has no `return`
statement, so a successful call returns `None`, not a pair — here a command
exits 0 with combined output `"hello"` and the call still returns `None`. -/
theorem claim_C7_counterexample :
    (run_cmds (behConst 0) ["swarmwrapper"] 0 0 false Option.none).2 =
      Except.ok PyRet.none ∧
    (Except.ok PyRet.none : Except PyErr PyRet) ≠
      Except.ok (PyRet.pair 0 (Option.some "hello")) := by
  refine ⟨rfl, ?_⟩
  intro h
  injection h with h1
  exact PyRet.noConfusion h1

/-- C7 (amended): `run_cmds` returns `None` rather than the contract's pair;
the pair's components exist internally: the capture variable holds the
combined output text when no redirect path is given and the `False` sentinel
when one is (with the child's stdout written to the redirect file instead),
and the exit code only determines whether the call returns or raises. -/
theorem claim_C7 (beh : Nat → ExecResult) (commands : List String) (k : Nat) (ce : Bool) :
    ((run_cmds beh commands k 0 ce Option.none).1.captured =
      [PyCapture.text (beh k).combined]) ∧
    (∀ p : String,
      (run_cmds beh commands k 0 ce (Option.some p)).1.captured = [PyCapture.sentinelFalse] ∧
      (run_cmds beh commands k 0 ce (Option.some p)).1.written = [(p, (beh k).out)]) ∧
    ((run_cmds beh commands k 0 ce Option.none).2 =
      if (beh k).exitcode = 0 ∨ ce = true then Except.ok PyRet.none
      else Except.error (PyErr.assertionError ("Exit code " ++ toString (beh k).exitcode))) := by
  refine ⟨?_, ?_, ?_⟩
  · simp only [run_cmds]
    split_ifs <;> simp [attemptTrace, capturedOf]
  · intro p
    constructor
    · simp only [run_cmds]
      split_ifs <;> simp [attemptTrace, capturedOf]
    · simp only [run_cmds]
      split_ifs <;> simp [attemptTrace, writtenOf]
  · by_cases h0 : (beh k).exitcode = 0
    · rw [if_pos (Or.inl h0)]
      exact run_cmds_zero_ok beh commands k 0 ce Option.none h0
    · cases hce : ce with
      | true =>
        rw [if_pos (Or.inr rfl)]
        simp [run_cmds, h0]
      | false =>
        rw [if_neg (by simp [h0])]
        exact run_cmds_zero_budget_fail beh commands k Option.none h0

/-- C10: when a `run_cmds` invocation is given a redirect path and a positive
retry budget and its first attempt exits non-zero, the retries run with the
*default* arguments (no redirect, no tolerate flag): the redirect file
receives only the first attempt's stdout, every retried attempt's capture
variable holds text (captured combined output, logged when non-empty) rather
than the redirect sentinel, and the call's outcome is exactly that of the
recursive call made with `catchExcept=False` and `stdout=None`. -/
theorem claim_C10 (beh : Nat → ExecResult) (commands : List String) (k retry : Nat)
    (ce : Bool) (p : String) (hfail : (beh k).exitcode ≠ 0) (hpos : 0 < retry) :
    (run_cmds beh commands k retry ce (Option.some p)).1.written = [(p, (beh k).out)] ∧
    (run_cmds beh commands k retry ce (Option.some p)).1.captured =
      PyCapture.sentinelFalse ::
        (run_cmds beh commands (k + 1) (retry - 1) false Option.none).1.captured ∧
    (∀ c ∈ (run_cmds beh commands (k + 1) (retry - 1) false Option.none).1.captured,
      ∃ s, c = PyCapture.text s) ∧
    ((beh (k + 1)).combined ≠ "" → "Standard output of subprocess:" ∈
      (run_cmds beh commands (k + 1) (retry - 1) false Option.none).1.log) ∧
    (run_cmds beh commands k retry ce (Option.some p)).2 =
      (run_cmds beh commands (k + 1) (retry - 1) false Option.none).2 := by
  cases retry with
  | zero => omega
  | succ r =>
    have hnw := run_cmds_none_no_writes beh commands r (k + 1) false
    refine ⟨?_, ?_, ?_, ?_, ?_⟩
    · simp only [run_cmds, if_pos hfail, appendTrace, attemptTrace, writtenOf]
      simp [hnw.1]
    · simp [run_cmds, if_pos hfail, appendTrace, attemptTrace, capturedOf]
    · simpa using hnw.2
    · intro hne
      simpa using run_cmds_stdout_logged beh commands r (k + 1) false hne
    · simp [run_cmds, if_pos hfail]

theorem claim_C10_witness :
    (run_cmds (behFailTimes 1) ["swarmwrapper"] 0 1 false
      (Option.some "/share/out.txt")).1.written = [("/share/out.txt", "bad")] ∧
    (run_cmds (behFailTimes 1) ["swarmwrapper"] 0 1 false
      (Option.some "/share/out.txt")).2 =
      (run_cmds (behFailTimes 1) ["swarmwrapper"] 1 0 false Option.none).2 := by
  have h := claim_C10 (behFailTimes 1) ["swarmwrapper"] 0 1 false "/share/out.txt"
    (by simp [behFailTimes]) (by omega)
  refine ⟨?_, ?_⟩
  · have h1 := h.1
    simpa [behFailTimes] using h1
  · exact h.2.2.2.2

theorem verifyOutputs_fails (fa cs : FileStat)
    (h : fa.path_exists = false ∨ fa.st_size = 0 ∨ cs.path_exists = false ∨ cs.st_size = 0) :
    verifyOutputs [fa, cs] = Except.error (PyErr.assertionError "") := by
  simp only [verifyOutputs]
  split_ifs with h1 h2 h3 h4
  any_goals rfl
  rcases h with h | h | h | h <;> simp_all

/-- C6: after a fatal error in the Fetching stage (which includes the
Normalizing steps, since lines 141-153 execute inside `get_reads_from_url`
under the `try` of lines 304-309) or in the Clustering stage (a non-zero exit
of the clustering tool under the `try` of lines 338-341), the handler calls
`exit_and_clean_up`, which removes the workspace directory recursively with
`shutil.rmtree` before the process exits. -/
theorem claim_C6 :
    (∀ (w : MainWorld) (e : PyErr), w.fetch = Except.error e →
      (mainRun w).tempRemoved = true) ∧
    (∀ w : MainWorld, (w.swarmBeh 0).exitcode ≠ 0 → (mainRun w).tempRemoved = true) := by
  constructor
  · intro w e hf
    simp [mainRun, hf, exit_and_clean_up]
  · intro w hx
    rcases hf : w.fetch with e | fp
    · simp [mainRun, hf, exit_and_clean_up]
    · have hr : ∀ cmds, (run_cmds w.swarmBeh cmds 0 0 false Option.none).2 =
          Except.error (PyErr.assertionError
            ("Exit code " ++ toString (w.swarmBeh 0).exitcode)) :=
        fun cmds => run_cmds_zero_budget_fail w.swarmBeh cmds 0 Option.none hx
      simp [mainRun, hf, hr, exit_and_clean_up]

theorem claim_C6_witness :
    (mainRun wFetchErr).tempRemoved = true ∧ (mainRun wSwarmExit1).tempRemoved = true :=
  ⟨claim_C6.1 wFetchErr (PyErr.exception "connection refused") rfl,
   claim_C6.2 wSwarmExit1 (by decide)⟩

/-- C1 counterexample: in a world where the clustering tool exits 0 but the
CSV output is zero bytes, the run does fail (non-zero exit status), but the
workspace is *not* torn down: the verification loop of lines 345-348 is
outside every `try/except`, so `exit_and_clean_up` never runs and
`tempRemoved` is `false`, contradicting the claimed teardown. -/
theorem claim_C1_counterexample :
    terminationStatus (mainRun wEmptyCsv).term ≠ 0 ∧
    (mainRun wEmptyCsv).tempRemoved = false := by
  constructor
  · decide
  · decide

/-- C1 (amended): when the clustering tool exits 0 but a declared output file
is missing or has size zero, the run fails — the bare `assert` raises an
uncaught `AssertionError` and the process exits with status 1 — but the
workspace directory is *not* torn down, unlike failures in the fetching and
clustering stages: the verification loop is outside every `try/except`. -/
theorem claim_C1 (w : MainWorld) (fp : String)
    (hf : w.fetch = Except.ok fp)
    (hx : (w.swarmBeh 0).exitcode = 0)
    (hbad : w.fasta_stat.path_exists = false ∨ w.fasta_stat.st_size = 0 ∨
      w.csv_stat.path_exists = false ∨ w.csv_stat.st_size = 0) :
    (mainRun w).term = Termination.uncaught (PyErr.assertionError "") ∧
    (mainRun w).tempRemoved = false ∧
    terminationStatus (mainRun w).term = 1 := by
  have hok : ∀ cmds, (run_cmds w.swarmBeh cmds 0 0 false Option.none).2 =
      Except.ok PyRet.none :=
    fun cmds => run_cmds_zero_ok w.swarmBeh cmds 0 0 false Option.none hx
  have hv := verifyOutputs_fails w.fasta_stat w.csv_stat hbad
  refine ⟨?_, ?_, ?_⟩ <;> simp [mainRun, hf, hok, hv, terminationStatus]

theorem claim_C1_witness :
    (mainRun wEmptyCsv).term = Termination.uncaught (PyErr.assertionError "") ∧
    (mainRun wEmptyCsv).tempRemoved = false ∧
    terminationStatus (mainRun wEmptyCsv).term = 1 :=
  claim_C1 wEmptyCsv "/share/abcd1234/reads.fasta" rfl (by decide) (by decide)

/-- C5 counterexample: the clustering tool fails with exit code 2; the exit
code is available (it is carried in the `AssertionError` message passed to
`sys.exit`), yet the process exit status is 1, because `sys.exit` is given an
exception object, not an integer — the claim's "propagates the failing
subprocess's exit code" does not hold. -/
theorem claim_C5_counterexample :
    (mainRun wSwarmExit2).term =
      Termination.sysExitCall (ExitArg.obj (PyErr.assertionError "Exit code 2")) ∧
    terminationStatus (mainRun wSwarmExit2).term = 1 ∧ (1 : Int) ≠ 2 := by
  refine ⟨by decide, by decide, by decide⟩

/-- C5 (amended): on full success the process exit status is 0, and on any
fatal error it is non-zero — but always exactly 1: `exit_and_clean_up` passes
the exception object to `sys.exit` (status 1 for any non-int argument), and
an uncaught exception also ends the interpreter with status 1; the failing
subprocess's exit code appears only in the logged/printed message. -/
theorem claim_C5 (w : MainWorld) :
    (terminationStatus (mainRun w).term = 0 ∨ terminationStatus (mainRun w).term = 1) ∧
    (terminationStatus (mainRun w).term = 0 ↔ (mainRun w).term = Termination.normalEnd) := by
  rcases hf : w.fetch with e | fp
  · simp [mainRun, hf, exit_and_clean_up, terminationStatus, sysExitStatus]
  · simp only [mainRun, hf, exit_and_clean_up]
    split
    · simp [terminationStatus, sysExitStatus]
    · split
      · simp [terminationStatus]
      · split
        · simp [terminationStatus]
        · simp [terminationStatus]
